import Mathlib

set_option autoImplicit false

/-!
Shallow embedding of `src/server.js` (casario-backend).

The source file contains two express servers:
* a volatile variant keeping all user data in an in-process object
  (`database.users`), modelled in namespace `Casario.V`;
* a persistent variant keeping one MongoDB document per user and delegating
  uploads to Cloudinary, modelled in namespace `Casario.P`.

Request bodies are JSON, handled dynamically; we model JS values with `JVal`
(`undef` stands for JavaScript `undefined`, i.e. an absent field or property).
-/

namespace Casario

mutual

/-- Dynamic JS/JSON value as manipulated by the server.  `undef` models the
JavaScript `undefined` value: destructuring an absent body field, or reading
an absent object property, yields `undef`. -/
inductive JVal where
  | undef
  | null
  | bool (b : Bool)
  | num (n : Int)
  | str (s : String)
  | arr (elems : JItems)
  | obj (fields : JFields)

/-- The elements of a JS array value (a specialised list, kept mutual with
`JVal` so that recursive functions on values are structurally recursive and
compute by kernel reduction). -/
inductive JItems where
  | nil
  | cons (head : JVal) (tail : JItems)

/-- The fields of a JS object value: name/value pairs in construction
order. -/
inductive JFields where
  | nil
  | cons (key : String) (val : JVal) (tail : JFields)

end

mutual

/-- Decidable equality of JS values (hand-written: `deriving` does not handle
the mutual inductive). -/
def JVal.decEq : (a b : JVal) → Decidable (a = b)
  | .undef, .undef => .isTrue rfl
  | .null, .null => .isTrue rfl
  | .bool x, .bool y =>
    if h : x = y then .isTrue (by rw [h]) else
      .isFalse (fun hh => h (by injection hh))
  | .num x, .num y =>
    if h : x = y then .isTrue (by rw [h]) else
      .isFalse (fun hh => h (by injection hh))
  | .str x, .str y =>
    if h : x = y then .isTrue (by rw [h]) else
      .isFalse (fun hh => h (by injection hh))
  | .arr xs, .arr ys =>
    match JItems.decEq xs ys with
    | .isTrue h => .isTrue (by rw [h])
    | .isFalse h => .isFalse (fun hh => h (by injection hh))
  | .obj xs, .obj ys =>
    match JFields.decEq xs ys with
    | .isTrue h => .isTrue (by rw [h])
    | .isFalse h => .isFalse (fun hh => h (by injection hh))
  | .undef, .null | .undef, .bool _ | .undef, .num _ | .undef, .str _
  | .undef, .arr _ | .undef, .obj _ => .isFalse nofun
  | .null, .undef | .null, .bool _ | .null, .num _ | .null, .str _
  | .null, .arr _ | .null, .obj _ => .isFalse nofun
  | .bool _, .undef | .bool _, .null | .bool _, .num _ | .bool _, .str _
  | .bool _, .arr _ | .bool _, .obj _ => .isFalse nofun
  | .num _, .undef | .num _, .null | .num _, .bool _ | .num _, .str _
  | .num _, .arr _ | .num _, .obj _ => .isFalse nofun
  | .str _, .undef | .str _, .null | .str _, .bool _ | .str _, .num _
  | .str _, .arr _ | .str _, .obj _ => .isFalse nofun
  | .arr _, .undef | .arr _, .null | .arr _, .bool _ | .arr _, .num _
  | .arr _, .str _ | .arr _, .obj _ => .isFalse nofun
  | .obj _, .undef | .obj _, .null | .obj _, .bool _ | .obj _, .num _
  | .obj _, .str _ | .obj _, .arr _ => .isFalse nofun

/-- Decidable equality of JS array contents. -/
def JItems.decEq : (xs ys : JItems) → Decidable (xs = ys)
  | .nil, .nil => .isTrue rfl
  | .nil, .cons _ _ => .isFalse nofun
  | .cons _ _, .nil => .isFalse nofun
  | .cons x xs, .cons y ys =>
    match JVal.decEq x y with
    | .isFalse h => .isFalse (fun hh => h (by injection hh))
    | .isTrue h1 =>
      match JItems.decEq xs ys with
      | .isTrue h2 => .isTrue (by rw [h1, h2])
      | .isFalse h => .isFalse (fun hh => h (by injection hh))

/-- Decidable equality of JS object field lists. -/
def JFields.decEq : (xs ys : JFields) → Decidable (xs = ys)
  | .nil, .nil => .isTrue rfl
  | .nil, .cons _ _ _ => .isFalse nofun
  | .cons _ _ _, .nil => .isFalse nofun
  | .cons k x xs, .cons l y ys =>
    if hk : k = l then
      match JVal.decEq x y with
      | .isFalse h => .isFalse (fun hh => h (by injection hh))
      | .isTrue h1 =>
        match JFields.decEq xs ys with
        | .isTrue h2 => .isTrue (by rw [hk, h1, h2])
        | .isFalse h => .isFalse (fun hh => h (by injection hh))
    else
      .isFalse (fun hh => hk (by injection hh))

end

instance : DecidableEq JVal := JVal.decEq

instance : DecidableEq JItems := JItems.decEq

instance : DecidableEq JFields := JFields.decEq

/-- Build a JS array's contents from a Lean list. -/
def JItems.ofList : List JVal → JItems
  | [] => .nil
  | x :: xs => .cons x (ofList xs)

/-- The contents of a JS array as a Lean list. -/
def JItems.toList : JItems → List JVal
  | .nil => []
  | .cons x t => x :: toList t

/-- Build a JS object's fields from a Lean list. -/
def JFields.ofList : List (String × JVal) → JFields
  | [] => .nil
  | (k, v) :: xs => .cons k v (ofList xs)

/-- A JS array literal. -/
def JVal.mkArr (l : List JVal) : JVal := .arr (JItems.ofList l)

/-- A JS object literal. -/
def JVal.mkObj (l : List (String × JVal)) : JVal := .obj (JFields.ofList l)

/-- JS truthiness, as used by `if (fleet)`, `if (!userId)`, `x || y`.
(The server never stores NaN, so `num` is falsy exactly at 0.) -/
def JVal.truthy : JVal → Bool
  | .undef => false
  | .null => false
  | .bool b => b
  | .num n => n != 0
  | .str s => s != ""
  | .arr _ => true
  | .obj _ => true

/-- `Array.isArray`. -/
def JVal.isArr : JVal → Bool
  | .arr _ => true
  | _ => false

/-- The element list of an array value (used only under an `isArr` guard). -/
def JVal.elems : JVal → List JVal
  | .arr xs => xs.toList
  | _ => []

/-- Field lookup in a JS object: the first field with the given name wins
(later duplicates in an object literal would have overwritten earlier ones at
construction, so stored objects have unique names); an absent name yields
`undefined`. -/
def JFields.get (fs : JFields) (k : String) : JVal :=
  match fs with
  | .nil => .undef
  | .cons k' v t => if k' = k then v else t.get k

/-- JS property access `v.k`: an absent property (or access on a non-object)
yields `undefined`. -/
def JVal.getProp (v : JVal) (k : String) : JVal :=
  match v with
  | .obj fs => fs.get k
  | _ => .undef

mutual

/-- JS string coercion, as performed by template literals
(`` `${month}-${year}` ``) and by computed property keys
(`database.users[userId]`): `String(undefined) = "undefined"`,
`String(null) = "null"`, numbers print in decimal, arrays join their
elements with `","`, plain objects print as `"[object Object]"`. -/
def JVal.jsToString : JVal → String
  | .undef => "undefined"
  | .null => "null"
  | .bool true => "true"
  | .bool false => "false"
  | .num n => toString n
  | .str s => s
  | .obj _ => "[object Object]"
  | .arr xs => xs.joinStr

/-- `Array.prototype.toString`: elements joined with `","`, with `null` and
`undefined` elements printing as the empty string. -/
def JItems.joinStr : JItems → String
  | .nil => ""
  | .cons .undef .nil => ""
  | .cons .null .nil => ""
  | .cons x .nil => x.jsToString
  | .cons .undef t => "," ++ t.joinStr
  | .cons .null t => "," ++ t.joinStr
  | .cons x t => x.jsToString ++ "," ++ t.joinStr

end

/-- `x || d` on JS values: the left operand when truthy, otherwise the
default. -/
def jsOr (v d : JVal) : JVal := if v.truthy then v else d

/-- One decimal digit of a character, if any. -/
def digit? (c : Char) : Option Nat :=
  if '0' ≤ c ∧ c ≤ '9' then some (c.toNat - 48) else none

/-- Accumulate the maximal leading run of decimal digits (`parseInt` ignores
everything after the first non-digit). -/
def parseDigits : List Char → Nat → Nat
  | [], acc => acc
  | c :: cs, acc =>
    match digit? c with
    | some d => parseDigits cs (acc * 10 + d)
    | none => acc

/-- JS `parseInt` restricted to the inputs the server meets: optional leading
whitespace, an optional sign, then decimal digits; any trailing garbage is
ignored.  A parse failure is NaN, which `res.json` serialises as `null`, so we
return `null` for it (legacy hex/octal prefixes are outside the modelled input
space). -/
def jsParseInt (s : String) : JVal :=
  let cs := s.toList.dropWhile (fun c => c = ' ' ∨ c = '\t' ∨ c = '\n' ∨ c = '\r')
  match cs with
  | '-' :: t =>
    match t with
    | c :: _ => if (digit? c).isSome then .num (-(parseDigits t 0 : Int)) else .null
    | [] => .null
  | '+' :: t =>
    match t with
    | c :: _ => if (digit? c).isSome then .num (parseDigits t 0 : Int) else .null
    | [] => .null
  | c :: _ => if (digit? c).isSome then .num (parseDigits cs 0 : Int) else .null
  | [] => .null

/-- Association list with update-in-place semantics.  It models both a JS
object used as a map (string keys, insertion order preserved: assignment to an
existing key keeps its position, a new key is appended — this is what
`Object.values` ordering depends on) and the Mongo `users` collection (lookup
of the single document whose `userId` equals the query value). -/
abbrev AMap (κ α : Type) : Type := List (κ × α)

namespace AMap

variable {κ α : Type} [DecidableEq κ]

/-- The empty map (`{}` / an empty collection). -/
def empty : AMap κ α := []

/-- Lookup: first entry with the given key. -/
def get? : AMap κ α → κ → Option α
  | [], _ => none
  | (k', v) :: t, k => if k' = k then some v else get? t k

/-- JS assignment `m[k] = v`: overwrite in place if the key exists, else
append. -/
def set : AMap κ α → κ → α → AMap κ α
  | [], k, v => [(k, v)]
  | (k', v') :: t, k, v =>
    if k' = k then (k, v) :: t else (k', v') :: set t k v

/-- `Object.values`. -/
def values (m : AMap κ α) : List α := m.map Prod.snd

@[simp] theorem get?_empty (k : κ) : (empty : AMap κ α).get? k = none := rfl

theorem get?_set (m : AMap κ α) (k k' : κ) (v : α) :
    (m.set k v).get? k' = if k' = k then some v else m.get? k' := by
  induction m with
  | nil =>
    simp only [set, get?]
    by_cases h : k = k'
    · subst h; simp
    · rw [if_neg h, if_neg (fun hh => h hh.symm)]
  | cons p t ih =>
    obtain ⟨k₀, v₀⟩ := p
    by_cases h0 : k₀ = k
    · subst h0
      simp only [set, if_pos rfl, get?]
      by_cases h1 : k₀ = k'
      · subst h1; simp
      · rw [if_neg h1, if_neg (fun hh => h1 hh.symm), if_neg h1]
    · simp only [set, if_neg h0, get?]
      by_cases h1 : k₀ = k'
      · subst h1
        rw [if_pos rfl, if_neg h0, if_pos rfl]
      · rw [if_neg h1, if_neg h1, ih]

theorem get?_set_self (m : AMap κ α) (k : κ) (v : α) :
    (m.set k v).get? k = some v := by
  simp [get?_set]

end AMap

/-- Storage key `` `${month}-${year}` `` of a monthly record. -/
def recKey (month year : JVal) : String :=
  month.jsToString ++ "-" ++ year.jsToString

/-! ## Volatile variant (first server in `src/server.js`)

All user data lives in `database.users`, an in-process object mapping the
string coercion of `userId` to that user's state. -/

namespace V

/-- A stored expense or income record
`{ userId, month, year, items, updatedAt }` (expenses and income have the same
shape in the source).  `updatedAt` is the `new Date()` the handler stamped,
abstracted as a natural number supplied per request. -/
structure ItemsRecord where
  userId : JVal
  month : JVal
  year : JVal
  items : JVal
  updatedAt : Nat
deriving DecidableEq

/-- A stored note record `{ userId, month, year, content, updatedAt }`. -/
structure NoteRecord where
  userId : JVal
  month : JVal
  year : JVal
  content : JVal
  updatedAt : Nat
deriving DecidableEq

/-- The per-user fleet object.  The lazily created default is
`{ vehicles: [] }` (no `userId`, no `updatedAt`); the sync handler stores
`{ userId, vehicles, updatedAt }`. -/
structure Fleet where
  userId : Option JVal := none
  vehicles : JVal
  updatedAt : Option Nat := none
deriving DecidableEq

/-- One user's state: `{ expenses: {}, income: {}, fleet: {...}, notes: {} }`,
each monthly map keyed by `` `${month}-${year}` ``. -/
structure UserState where
  expenses : AMap String ItemsRecord
  income : AMap String ItemsRecord
  fleet : Fleet
  notes : AMap String NoteRecord
deriving DecidableEq

/-- The state created lazily for an unseen user. -/
def defaultUserState : UserState :=
  { expenses := AMap.empty, income := AMap.empty,
    fleet := { vehicles := .arr .nil }, notes := AMap.empty }

/-- `database.users`: the in-process store. -/
abbrev Database := AMap String UserState

/-- `getUserData(userId)`: lazily creates the default user state under the
JS property key `String(userId)` (so a missing `userId` is stored under the
key `"undefined"`), and returns the (possibly fresh) state together with the
updated store. -/
def getUserData (db : Database) (userId : JVal) : Database × UserState :=
  match db.get? userId.jsToString with
  | some u => (db, u)
  | none => (db.set userId.jsToString defaultUserState, defaultUserState)

/-- Stored state of a user after a request, if any. -/
def storedUser (db : Database) (userId : JVal) : Option UserState :=
  db.get? userId.jsToString

/-- Response of the per-month GET handlers: the stored record, or the
structurally defaulted one (which carries no `updatedAt` field and has
`month`/`year` run through `parseInt`). -/
structure RecordOut where
  userId : JVal
  month : JVal
  year : JVal
  items : JVal
  updatedAt : Option Nat
deriving DecidableEq

/-- Response of `GET /api/notes/...`: as `RecordOut` with `content` instead of
`items` (defaulted to `''`). -/
structure NoteOut where
  userId : JVal
  month : JVal
  year : JVal
  content : JVal
  updatedAt : Option Nat
deriving DecidableEq

/-- `GET /api/expenses/:userId/:month/:year`.  URL parameters are strings; the
defaulted record carries `parseInt(month)` / `parseInt(year)`.  (The `||`
guard in the source only fires when the key is absent, since stored records
are objects, hence truthy.) -/
def getExpenses (db : Database) (userId month year : String) :
    Database × RecordOut :=
  let p := getUserData db (.str userId)
  let key := recKey (.str month) (.str year)
  match p.2.expenses.get? key with
  | some r => (p.1, ⟨r.userId, r.month, r.year, r.items, some r.updatedAt⟩)
  | none =>
    (p.1, ⟨.str userId, jsParseInt month, jsParseInt year, .arr .nil, none⟩)

/-- `GET /api/income/:userId/:month/:year`. -/
def getIncome (db : Database) (userId month year : String) :
    Database × RecordOut :=
  let p := getUserData db (.str userId)
  let key := recKey (.str month) (.str year)
  match p.2.income.get? key with
  | some r => (p.1, ⟨r.userId, r.month, r.year, r.items, some r.updatedAt⟩)
  | none =>
    (p.1, ⟨.str userId, jsParseInt month, jsParseInt year, .arr .nil, none⟩)

/-- `GET /api/notes/:userId/:month/:year` (default content `''`). -/
def getNotes (db : Database) (userId month year : String) :
    Database × NoteOut :=
  let p := getUserData db (.str userId)
  let key := recKey (.str month) (.str year)
  match p.2.notes.get? key with
  | some r => (p.1, ⟨r.userId, r.month, r.year, r.content, some r.updatedAt⟩)
  | none =>
    (p.1, ⟨.str userId, jsParseInt month, jsParseInt year, .str "", none⟩)

/-- Body of `POST /api/expenses` (and `/api/income`):
`{ userId, month, year, items }`, any field possibly `undefined`. -/
structure RecordBody where
  userId : JVal
  month : JVal
  year : JVal
  items : JVal
deriving DecidableEq

/-- `POST /api/expenses`: overwrite the single record at
`` `${month}-${year}` `` with a fresh `updatedAt`; responds
`{ success: true, expense: <stored record> }`. -/
def postExpenses (db : Database) (now : Nat) (b : RecordBody) :
    Database × ItemsRecord :=
  let p := getUserData db b.userId
  let key := recKey b.month b.year
  let r : ItemsRecord := ⟨b.userId, b.month, b.year, b.items, now⟩
  (p.1.set b.userId.jsToString { p.2 with expenses := p.2.expenses.set key r },
   r)

/-- Response of `GET /api/sync/:userId` (volatile): the three record maps
flattened with `Object.values` (insertion order of first write), the fleet
object, and a timestamp.  The `|| []` / `|| {vehicles: []}` guards in the
source are dead code: arrays and the fleet object are always truthy. -/
structure SyncOut where
  expenses : List ItemsRecord
  income : List ItemsRecord
  fleet : Fleet
  notes : List NoteRecord
  timestamp : Nat
deriving DecidableEq

/-- `GET /api/sync/:userId` (volatile). -/
def getSync (db : Database) (now : Nat) (userId : String) :
    Database × SyncOut :=
  let p := getUserData db (.str userId)
  (p.1, ⟨p.2.expenses.values, p.2.income.values, p.2.fleet,
         p.2.notes.values, now⟩)

/-- Body of `POST /api/sync` (volatile):
`{ userId, expenses, income, fleet, notes }`, each possibly `undefined`. -/
structure SyncBody where
  userId : JVal
  expenses : JVal
  income : JVal
  fleet : JVal
  notes : JVal
deriving DecidableEq

/-- The `expenses.forEach(exp => ...)` loop of the volatile sync handler:
key-wise upsert of every incoming entry, later entries overwriting earlier
ones at the same `` `${month}-${year}` `` key. -/
def upsertItems (userId : JVal) (now : Nat) (l : List JVal)
    (m : AMap String ItemsRecord) : AMap String ItemsRecord :=
  l.foldl (fun m e =>
    m.set (recKey (e.getProp "month") (e.getProp "year"))
      ⟨userId, e.getProp "month", e.getProp "year", e.getProp "items", now⟩) m

/-- The `notes.forEach(note => ...)` loop of the volatile sync handler. -/
def upsertNotes (userId : JVal) (now : Nat) (l : List JVal)
    (m : AMap String NoteRecord) : AMap String NoteRecord :=
  l.foldl (fun m e =>
    m.set (recKey (e.getProp "month") (e.getProp "year"))
      ⟨userId, e.getProp "month", e.getProp "year", e.getProp "content", now⟩) m

/-- `POST /api/sync` (volatile).  No `userId` validation: the user state is
resolved (and lazily created) under `String(userId)`.  Each of the four
top-level fields is applied only when present (`expenses && Array.isArray`,
`if (fleet)`); the fleet is replaced wholesale with
`vehicles: fleet.vehicles || []`.  Always responds `{ success: true }`. -/
def postSync (db : Database) (now : Nat) (b : SyncBody) : Database × Bool :=
  let p := getUserData db b.userId
  let u0 := p.2
  let u1 := if b.expenses.truthy && b.expenses.isArr then
      { u0 with expenses := upsertItems b.userId now b.expenses.elems u0.expenses }
    else u0
  let u2 := if b.income.truthy && b.income.isArr then
      { u1 with income := upsertItems b.userId now b.income.elems u1.income }
    else u1
  let u3 := if b.fleet.truthy then
      { u2 with fleet := ⟨some b.userId,
          jsOr (b.fleet.getProp "vehicles") (.arr .nil), some now⟩ }
    else u2
  let u4 := if b.notes.truthy && b.notes.isArr then
      { u3 with notes := upsertNotes b.userId now b.notes.elems u3.notes }
    else u3
  (p.1.set b.userId.jsToString u4, true)

end V

/-! ## Persistent variant (second server in `src/server.js`)

One MongoDB document per `userId` in the `users` collection; uploads are
delegated to Cloudinary. -/

namespace P

/-- A user document in the `users` collection.  Every data field is stored
verbatim as sent by the client (`$set` of the raw payload value); `undef`
models a field absent from the document (reading it in JS yields
`undefined`). -/
structure UserDoc where
  userId : JVal
  expenses : JVal := .undef
  income : JVal := .undef
  fleet : JVal := .undef
  notes : JVal := .undef
  systemUsers : JVal := .undef
  years : JVal := .undef
  categories : JVal := .undef
  suppliers : JVal := .undef
  paymentMethods : JVal := .undef
  maintenance : JVal := .undef
  maintenanceTypes : JVal := .undef
  maintenanceAreas : JVal := .undef
  updatedAt : Nat
deriving DecidableEq

/-- The `users` collection: `findOne({userId})` / `updateOne({userId}, ...)`
resolve the single document whose `userId` field equals the query value
(MongoDB equality does not coerce types, so a string query never matches a
numeric `userId`). -/
abbrev UsersCollection := AMap JVal UserDoc

/-- The fixed default category list. -/
def defaultCategories : List String :=
  ["Alimentação", "Carro", "Transporte", "Manutenção", "Farmácia", "Outros",
   "Pets", "Hotel", "Escritório", "Fornecedor"]

/-- The fixed default supplier list. -/
def defaultSuppliers : List String :=
  ["Amoedo", "Carrefour", "Detail Wash", "Droga Raia", "Hortfruti", "Kalunga",
   "Lave Bem", "Outros", "Pacheco", "PetChic", "Posto hum", "Prezunic",
   "RM água", "Venancio", "Zona Sul"]

/-- The fixed default payment-method list. -/
def defaultPaymentMethods : List String :=
  ["Cartão de Crédito", "Reembolso", "Conta Corrente", "Outros"]

/-- A JSON array of strings. -/
def strArr (l : List String) : JVal := JVal.mkArr (l.map .str)

/-- The default years list `[2024, 2025, 2026]`. -/
def defaultYears : JVal := JVal.mkArr [.num 2024, .num 2025, .num 2026]

/-- The default fleet object `{ vehicles: [] }`. -/
def defaultFleet : JVal := JVal.mkObj [("vehicles", .arr .nil)]

/-- The full-state response of `GET /api/sync/:userId` (persistent). -/
structure SyncOut where
  expenses : JVal
  income : JVal
  fleet : JVal
  notes : JVal
  systemUsers : JVal
  years : JVal
  categories : JVal
  suppliers : JVal
  paymentMethods : JVal
  maintenance : JVal
  maintenanceTypes : JVal
  maintenanceAreas : JVal
  timestamp : Nat
deriving DecidableEq

/-- The response for a `userId` with no document: the documented defaults. -/
def defaultSyncOut (now : Nat) : SyncOut :=
  ⟨.arr .nil, .arr .nil, defaultFleet, .arr .nil, .arr .nil, defaultYears,
   strArr defaultCategories, strArr defaultSuppliers,
   strArr defaultPaymentMethods, .arr .nil, .arr .nil, .arr .nil, now⟩

/-- `GET /api/sync/:userId` (persistent): the stored document with each field
defaulted via `||` when absent or falsy, or the exact default payload when no
document exists. -/
def getSync (col : UsersCollection) (now : Nat) (userId : String) : SyncOut :=
  match col.get? (.str userId) with
  | none => defaultSyncOut now
  | some d =>
    ⟨jsOr d.expenses (.arr .nil), jsOr d.income (.arr .nil),
     jsOr d.fleet defaultFleet, jsOr d.notes (.arr .nil),
     jsOr d.systemUsers (.arr .nil), jsOr d.years defaultYears,
     jsOr d.categories (strArr defaultCategories),
     jsOr d.suppliers (strArr defaultSuppliers),
     jsOr d.paymentMethods (strArr defaultPaymentMethods),
     jsOr d.maintenance (.arr .nil), jsOr d.maintenanceTypes (.arr .nil),
     jsOr d.maintenanceAreas (.arr .nil), now⟩

/-- Body of `POST /api/sync` (persistent): thirteen destructured fields, each
possibly `undefined`. -/
structure SyncBody where
  userId : JVal
  expenses : JVal
  income : JVal
  fleet : JVal
  notes : JVal
  systemUsers : JVal
  years : JVal
  categories : JVal
  suppliers : JVal
  paymentMethods : JVal
  maintenance : JVal
  maintenanceTypes : JVal
  maintenanceAreas : JVal
deriving DecidableEq

/-- `if (x !== undefined) update.x = x`: include the incoming value in the
`$set` document only when it is not `undefined` (note: `null` is included). -/
def setField (old new : JVal) : JVal :=
  match new with
  | .undef => old
  | v => v

/-- Result of a mutating endpoint: `{success: true}` or an HTTP error. -/
inductive PostResult where
  | ok
  | badRequest (error : String)
deriving DecidableEq

/-- HTTP status of a `PostResult` (`res.status(400)` on validation failure,
200 otherwise). -/
def PostResult.status : PostResult → Nat
  | .ok => 200
  | .badRequest _ => 400

/-- `POST /api/sync` (persistent): reject a falsy `userId` with HTTP 400 and
no storage operation; otherwise `updateOne({userId}, {$set: update},
{upsert: true})` where `update` holds `userId`, a fresh `updatedAt`, and
every payload field that is not `undefined`, each replacing the stored field
wholesale. -/
def postSync (col : UsersCollection) (now : Nat) (b : SyncBody) :
    UsersCollection × PostResult :=
  if b.userId.truthy then
    let base : UserDoc := (col.get? b.userId).getD { userId := b.userId, updatedAt := now }
    let d : UserDoc :=
      { userId := b.userId
        expenses := setField base.expenses b.expenses
        income := setField base.income b.income
        fleet := setField base.fleet b.fleet
        notes := setField base.notes b.notes
        systemUsers := setField base.systemUsers b.systemUsers
        years := setField base.years b.years
        categories := setField base.categories b.categories
        suppliers := setField base.suppliers b.suppliers
        paymentMethods := setField base.paymentMethods b.paymentMethods
        maintenance := setField base.maintenance b.maintenance
        maintenanceTypes := setField base.maintenanceTypes b.maintenanceTypes
        maintenanceAreas := setField base.maintenanceAreas b.maintenanceAreas
        updatedAt := now }
    (col.set b.userId d, .ok)
  else
    (col, .badRequest "userId obrigatório")

/-- The twelve data fields of the sync protocol (everything but `userId` and
the timestamps). -/
inductive Field where
  | expenses | income | fleet | notes | systemUsers | years | categories
  | suppliers | paymentMethods | maintenance | maintenanceTypes
  | maintenanceAreas
deriving DecidableEq

/-- Field projection of a write payload. -/
def SyncBody.field (b : SyncBody) : Field → JVal
  | .expenses => b.expenses
  | .income => b.income
  | .fleet => b.fleet
  | .notes => b.notes
  | .systemUsers => b.systemUsers
  | .years => b.years
  | .categories => b.categories
  | .suppliers => b.suppliers
  | .paymentMethods => b.paymentMethods
  | .maintenance => b.maintenance
  | .maintenanceTypes => b.maintenanceTypes
  | .maintenanceAreas => b.maintenanceAreas

/-- Field projection of a read response. -/
def SyncOut.field (r : SyncOut) : Field → JVal
  | .expenses => r.expenses
  | .income => r.income
  | .fleet => r.fleet
  | .notes => r.notes
  | .systemUsers => r.systemUsers
  | .years => r.years
  | .categories => r.categories
  | .suppliers => r.suppliers
  | .paymentMethods => r.paymentMethods
  | .maintenance => r.maintenance
  | .maintenanceTypes => r.maintenanceTypes
  | .maintenanceAreas => r.maintenanceAreas

/-- Field projection of a stored document. -/
def UserDoc.field (d : UserDoc) : Field → JVal
  | .expenses => d.expenses
  | .income => d.income
  | .fleet => d.fleet
  | .notes => d.notes
  | .systemUsers => d.systemUsers
  | .years => d.years
  | .categories => d.categories
  | .suppliers => d.suppliers
  | .paymentMethods => d.paymentMethods
  | .maintenance => d.maintenance
  | .maintenanceTypes => d.maintenanceTypes
  | .maintenanceAreas => d.maintenanceAreas

/-- Outcome of `DELETE /api/upload`. -/
inductive DeleteOutcome where
  | ok
  | validationError (error : String)
  | providerError (error : String)
deriving DecidableEq

/-- HTTP status of a `DeleteOutcome` (400 for the missing-`publicId`
validation error, 500 with the provider message on provider failure). -/
def DeleteOutcome.status : DeleteOutcome → Nat
  | .ok => 200
  | .validationError _ => 400
  | .providerError _ => 500

/-- `DELETE /api/upload`: reject a falsy `publicId` with HTTP 400 before any
provider interaction; otherwise delegate to
`cloudinary.uploader.destroy(publicId)`, whose outcome is abstracted as
`providerResult` (`.error msg` = the provider threw).  The second component
records whether the provider was invoked. -/
def deleteUpload (publicId : JVal) (providerResult : Except String Unit) :
    DeleteOutcome × Bool :=
  if publicId.truthy then
    match providerResult with
    | .ok _ => (.ok, true)
    | .error msg => (.providerError msg, true)
  else
    (.validationError "publicId obrigatório", false)

end P

/-! ## Helper lemmas -/

@[simp] theorem JVal.jsToString_str (s : String) :
    (JVal.str s).jsToString = s := rfl

theorem AMap.get?_foldl_set {β α : Type} (keyOf : β → String) (mkV : β → α)
    (l : List β) (m : AMap String α) (k : String) :
    (l.foldl (fun acc e => acc.set (keyOf e) (mkV e)) m).get? k =
      match l.reverse.find? (fun e => keyOf e == k) with
      | some e => some (mkV e)
      | none => m.get? k := by
  induction l generalizing m with
  | nil => rfl
  | cons e t ih =>
    rw [List.foldl_cons, ih, List.reverse_cons, List.find?_append]
    cases hf : t.reverse.find? (fun e => keyOf e == k) with
    | some e2 => simp
    | none =>
      by_cases hk : keyOf e = k
      · simp [List.find?, hk, AMap.get?_set]
      · rw [Option.none_or]
        simp only [List.find?, beq_eq_false_iff_ne.mpr hk]
        simp [AMap.get?_set, Ne.symm hk]

namespace V

theorem getUserData_of_mem {db : Database} {uid : JVal} {u : UserState}
    (h : db.get? uid.jsToString = some u) : getUserData db uid = (db, u) := by
  unfold getUserData
  rw [h]

/-- After `getUserData`, the user is stored. -/
theorem get?_getUserData (db : Database) (uid : JVal) :
    ((getUserData db uid).1).get? uid.jsToString
      = some (getUserData db uid).2 := by
  unfold getUserData
  cases h : db.get? uid.jsToString with
  | some u => simp [h]
  | none => simp [h, AMap.get?_set_self]

@[simp] theorem getUserData_set_str (db : Database) (u : String)
    (x : UserState) : getUserData (db.set u x) (.str u) = (db.set u x, x) :=
  getUserData_of_mem (AMap.get?_set_self _ _ _)

/-- Key-wise characterisation of the sync upsert loop for expense / income
entries: the last incoming entry with the given key wins; keys not written by
any incoming entry keep their stored record. -/
theorem get?_upsertItems (userId : JVal) (now : Nat) (l : List JVal)
    (m : AMap String ItemsRecord) (k : String) :
    (upsertItems userId now l m).get? k =
      match l.reverse.find?
          (fun e => recKey (e.getProp "month") (e.getProp "year") == k) with
      | some e => some ⟨userId, e.getProp "month", e.getProp "year",
          e.getProp "items", now⟩
      | none => m.get? k := by
  unfold upsertItems
  rw [AMap.get?_foldl_set]
  cases List.find? (fun e => recKey (e.getProp "month") (e.getProp "year") == k)
    l.reverse <;> rfl

/-- Key-wise characterisation of the sync upsert loop for note entries. -/
theorem get?_upsertNotes (userId : JVal) (now : Nat) (l : List JVal)
    (m : AMap String NoteRecord) (k : String) :
    (upsertNotes userId now l m).get? k =
      match l.reverse.find?
          (fun e => recKey (e.getProp "month") (e.getProp "year") == k) with
      | some e => some ⟨userId, e.getProp "month", e.getProp "year",
          e.getProp "content", now⟩
      | none => m.get? k := by
  unfold upsertNotes
  rw [AMap.get?_foldl_set]
  cases List.find? (fun e => recKey (e.getProp "month") (e.getProp "year") == k)
    l.reverse <;> rfl

end V


/-! ### `parseInt` inverts decimal printing -/

theorem digit?_digitChar (d : Nat) (h : d < 10) :
    digit? (Nat.digitChar d) = some d := by
  interval_cases d <;> decide

theorem toDigitsCore_append :
    ∀ (f n : Nat) (ds : List Char), n < f →
      Nat.toDigitsCore 10 f n ds = Nat.toDigitsCore 10 f n [] ++ ds := by
  intro f
  induction f with
  | zero => intro n ds h; omega
  | succ f ih =>
    intro n ds _
    simp only [Nat.toDigitsCore]
    by_cases h10 : n / 10 = 0
    · simp [h10]
    · have hlt : n / 10 < f := by
        have h1 : n / 10 < n :=
          Nat.div_lt_self (Nat.pos_of_ne_zero (fun h0 => h10 (by simp [h0])))
            (by omega)
        omega
      simp only [h10, if_false]
      rw [ih (n / 10) (Nat.digitChar (n % 10) :: ds) hlt,
          ih (n / 10) [Nat.digitChar (n % 10)] hlt]
      simp

theorem toDigitsCore_ne_nil :
    ∀ (f n : Nat) (ds : List Char), n < f →
      Nat.toDigitsCore 10 f n ds ≠ [] := by
  intro f
  induction f with
  | zero => intro n ds h; omega
  | succ f ih =>
    intro n ds _
    simp only [Nat.toDigitsCore]
    by_cases h10 : n / 10 = 0
    · simp [h10]
    · have hlt : n / 10 < f := by
        have h1 : n / 10 < n :=
          Nat.div_lt_self (Nat.pos_of_ne_zero (fun h0 => h10 (by simp [h0])))
            (by omega)
        omega
      simp only [h10, if_false]
      exact ih (n / 10) _ hlt

theorem toDigitsCore_all_digits :
    ∀ (f n : Nat) (ds : List Char),
      (∀ c ∈ ds, (digit? c).isSome = true) →
      ∀ c ∈ Nat.toDigitsCore 10 f n ds, (digit? c).isSome = true := by
  intro f
  induction f with
  | zero => intro n ds hds; simpa [Nat.toDigitsCore] using hds
  | succ f ih =>
    intro n ds hds
    simp only [Nat.toDigitsCore]
    have hd : (digit? (Nat.digitChar (n % 10))).isSome = true := by
      rw [digit?_digitChar _ (Nat.mod_lt n (by omega))]; rfl
    by_cases h10 : n / 10 = 0
    · simp only [h10, if_true]
      intro c hc
      rcases List.mem_cons.mp hc with rfl | hc
      · exact hd
      · exact hds c hc
    · simp only [h10, if_false]
      refine ih (n / 10) _ ?_
      intro c hc
      rcases List.mem_cons.mp hc with rfl | hc
      · exact hd
      · exact hds c hc

theorem parseDigits_toDigitsCore :
    ∀ (f n acc : Nat) (ys : List Char), n < f →
      parseDigits (Nat.toDigitsCore 10 f n [] ++ ys) acc
        = parseDigits ys
            (acc * 10 ^ (Nat.toDigitsCore 10 f n []).length + n) := by
  intro f
  induction f with
  | zero => intro n acc ys h; omega
  | succ f ih =>
    intro n acc ys _
    by_cases h10 : n / 10 = 0
    · have hn : n % 10 = n := Nat.mod_eq_of_lt (by omega)
      simp only [Nat.toDigitsCore, h10, if_true, List.singleton_append,
        List.length_singleton, pow_one, parseDigits, hn]
      rw [digit?_digitChar n (by omega)]
    · have hpos : 0 < n :=
        Nat.pos_of_ne_zero (fun h0 => h10 (by simp [h0]))
      have hlt : n / 10 < f := by
        have h1 : n / 10 < n := Nat.div_lt_self hpos (by omega)
        omega
      have happ :=
        toDigitsCore_append f (n / 10) [Nat.digitChar (n % 10)] hlt
      simp only [Nat.toDigitsCore, h10, if_false]
      rw [happ, List.append_assoc, List.singleton_append,
        ih (n / 10) acc (Nat.digitChar (n % 10) :: ys) hlt]
      simp only [parseDigits,
        digit?_digitChar (n % 10) (Nat.mod_lt n (by omega)),
        List.length_append, List.length_singleton]
      congr 1
      rw [pow_succ, ← mul_assoc]
      generalize acc * 10 ^ (Nat.toDigitsCore 10 f (n / 10) []).length = m
      omega

/-- `parseInt` recovers a natural number from its decimal printing: the
modelled `jsParseInt` is a left inverse of `toString` on `Nat`. -/
theorem jsParseInt_natToString (n : Nat) :
    jsParseInt (toString n) = .num n := by
  have hne : Nat.toDigitsCore 10 (n + 1) n [] ≠ [] :=
    toDigitsCore_ne_nil (n + 1) n [] (by omega)
  obtain ⟨c, t, hct⟩ := List.exists_cons_of_ne_nil hne
  have hall := toDigitsCore_all_digits (n + 1) n [] (by simp)
  have hc : (digit? c).isSome = true := by
    refine hall c ?_
    rw [hct]
    exact List.mem_cons_self _ _
  have hw : ¬(c = ' ' ∨ c = '\t' ∨ c = '\n' ∨ c = '\r') := by
    rintro (rfl | rfl | rfl | rfl) <;> exact absurd hc (by decide)
  have hlist : (toString n).toList = Nat.toDigitsCore 10 (n + 1) n [] := rfl
  simp only [jsParseInt, hlist, hct, List.dropWhile_cons]
  rw [if_neg (by simp only [decide_eq_true_eq]; exact hw)]
  split
  · next heq =>
    rw [List.cons.injEq] at heq
    obtain ⟨rfl, -⟩ := heq
    exact absurd hc (by decide)
  · next heq =>
    rw [List.cons.injEq] at heq
    obtain ⟨rfl, -⟩ := heq
    exact absurd hc (by decide)
  · next c2 t2 hne1 hne2 heq =>
    rw [List.cons.injEq] at heq
    obtain ⟨rfl, rfl⟩ := heq
    rw [if_pos hc]
    have hp := parseDigits_toDigitsCore (n + 1) n 0 [] (by omega)
    rw [List.append_nil] at hp
    simp only [parseDigits, zero_mul, zero_add] at hp
    rw [hct] at hp
    rw [hp]
  · next heq => exact absurd heq (by simp)

/-! ## Claims -/

/-- C4: two sequential `POST /api/expenses` writes with the same
`(userId, month, year)` and items `i1` then `i2` leave only the second
readable: the subsequent `GET /api/expenses/{userId}/{month}/{year}` returns
the full second record (items `i2`, fresh `updatedAt`), with no trace of the
first — the record is replaced wholesale, never merged. -/
theorem claim_C4 :
    ∀ (db : V.Database) (n1 n2 : Nat) (u : String) (mo yr i1 i2 : JVal),
      (V.getExpenses
          ((V.postExpenses ((V.postExpenses db n1 ⟨.str u, mo, yr, i1⟩).1)
            n2 ⟨.str u, mo, yr, i2⟩).1)
          u mo.jsToString yr.jsToString).2
        = ⟨.str u, mo, yr, i2, some n2⟩ := by
  intro db n1 n2 u mo yr i1 i2
  simp [V.postExpenses, V.getExpenses, recKey, AMap.get?_set_self]

/-- C5: writing the same expense record twice (identical `userId`, `month`,
`year`, `items`) is idempotent up to `updatedAt`: the read after the second
write has the same `items` (indeed the same record except the timestamp) as
the read after the first write. -/
theorem claim_C5 :
    ∀ (db : V.Database) (n1 n2 : Nat) (u : String) (mo yr i : JVal),
      ((V.getExpenses ((V.postExpenses
            ((V.postExpenses db n1 ⟨.str u, mo, yr, i⟩).1)
            n2 ⟨.str u, mo, yr, i⟩).1) u mo.jsToString yr.jsToString).2).items
        = ((V.getExpenses ((V.postExpenses db n1 ⟨.str u, mo, yr, i⟩).1)
            u mo.jsToString yr.jsToString).2).items ∧
      (V.getExpenses ((V.postExpenses
            ((V.postExpenses db n1 ⟨.str u, mo, yr, i⟩).1)
            n2 ⟨.str u, mo, yr, i⟩).1) u mo.jsToString yr.jsToString).2
        = { (V.getExpenses ((V.postExpenses db n1 ⟨.str u, mo, yr, i⟩).1)
              u mo.jsToString yr.jsToString).2 with updatedAt := some n2 } := by
  intro db n1 n2 u mo yr i
  constructor <;>
    simp [V.postExpenses, V.getExpenses, recKey, AMap.get?_set_self]

/-- C6: for a `(userId, month, year)` key with no stored record, the
per-domain GET handlers return a structurally defaulted record — the
requested `userId`, the `parseInt` of the requested `month` and `year`
segments, and empty `items` (expenses/income) or empty `content` (notes) —
rather than an error or a null result.  In particular, for numeric segments
the defaulted record carries the requested month and year back as numbers
(`jsParseInt_natToString`). -/
theorem claim_C6 :
    (∀ (db : V.Database) (u ms ys : String),
      ((V.getUserData db (.str u)).2.expenses.get?
          (recKey (.str ms) (.str ys)) = none →
        (V.getExpenses db u ms ys).2
          = ⟨.str u, jsParseInt ms, jsParseInt ys, .arr .nil, none⟩) ∧
      ((V.getUserData db (.str u)).2.income.get?
          (recKey (.str ms) (.str ys)) = none →
        (V.getIncome db u ms ys).2
          = ⟨.str u, jsParseInt ms, jsParseInt ys, .arr .nil, none⟩) ∧
      ((V.getUserData db (.str u)).2.notes.get?
          (recKey (.str ms) (.str ys)) = none →
        (V.getNotes db u ms ys).2
          = ⟨.str u, jsParseInt ms, jsParseInt ys, .str "", none⟩)) ∧
    (∀ (db : V.Database) (u : String) (mo yr : Nat),
      (V.getUserData db (.str u)).2.expenses.get?
          (recKey (.str (toString mo)) (.str (toString yr))) = none →
      (V.getExpenses db u (toString mo) (toString yr)).2
        = ⟨.str u, .num mo, .num yr, .arr .nil, none⟩) := by
  have main : ∀ (db : V.Database) (u ms ys : String),
      ((V.getUserData db (.str u)).2.expenses.get?
          (recKey (.str ms) (.str ys)) = none →
        (V.getExpenses db u ms ys).2
          = ⟨.str u, jsParseInt ms, jsParseInt ys, .arr .nil, none⟩) ∧
      ((V.getUserData db (.str u)).2.income.get?
          (recKey (.str ms) (.str ys)) = none →
        (V.getIncome db u ms ys).2
          = ⟨.str u, jsParseInt ms, jsParseInt ys, .arr .nil, none⟩) ∧
      ((V.getUserData db (.str u)).2.notes.get?
          (recKey (.str ms) (.str ys)) = none →
        (V.getNotes db u ms ys).2
          = ⟨.str u, jsParseInt ms, jsParseInt ys, .str "", none⟩) := by
    intro db u ms ys
    refine ⟨fun h => ?_, fun h => ?_, fun h => ?_⟩ <;>
      simp [V.getExpenses, V.getIncome, V.getNotes, h]
  refine ⟨main, fun db u mo yr h => ?_⟩
  rw [(main db u (toString mo) (toString yr)).1 h,
    jsParseInt_natToString, jsParseInt_natToString]

/-- C6 witness: on an empty store, reading expenses/income/notes of March
2025 for an unseen user yields the defaulted records with the requested key
carried back as numbers. -/
theorem claim_C6_witness :
    (V.getExpenses AMap.empty "alice" "3" "2025").2
      = ⟨.str "alice", .num 3, .num 2025, .arr .nil, none⟩ ∧
    (V.getIncome AMap.empty "alice" "3" "2025").2
      = ⟨.str "alice", .num 3, .num 2025, .arr .nil, none⟩ ∧
    (V.getNotes AMap.empty "alice" "3" "2025").2
      = ⟨.str "alice", .num 3, .num 2025, .str "", none⟩ :=
  ⟨claim_C6.2 AMap.empty "alice" 3 2025 rfl,
   (claim_C6.1 AMap.empty "alice" "3" "2025").2.1 rfl,
   (claim_C6.1 AMap.empty "alice" "3" "2025").2.2 rfl⟩

/-- C7: `DELETE /api/upload` with a missing `publicId` responds HTTP 400 with
a validation error and never invokes the provider; with a `publicId` present
it delegates to the provider, and a provider failure yields the HTTP 500
response carrying the provider message (success yields `{success: true}`). -/
theorem claim_C7 :
    (∀ pr : Except String Unit,
       P.deleteUpload .undef pr
           = (.validationError "publicId obrigatório", false) ∧
       (P.deleteUpload .undef pr).1.status = 400) ∧
    (∀ (pid : JVal) (msg : String), pid.truthy = true →
       P.deleteUpload pid (.error msg) = (.providerError msg, true) ∧
       (P.deleteUpload pid (.error msg)).1.status = 500) ∧
    (∀ pid : JVal, pid.truthy = true →
       P.deleteUpload pid (.ok ()) = (.ok, true)) := by
  refine ⟨fun pr => ?_, fun pid msg h => ?_, fun pid h => ?_⟩
  · simp [P.deleteUpload, P.DeleteOutcome.status, JVal.truthy]
  · simp [P.deleteUpload, P.DeleteOutcome.status, h]
  · simp [P.deleteUpload, h]

/-- C7 witness at a concrete `publicId` and provider outcome. -/
theorem claim_C7_witness :
    P.deleteUpload (.str "casadw/u1/123_foto") (.error "boom")
        = (.providerError "boom", true) ∧
    P.deleteUpload (.str "casadw/u1/123_foto") (.ok ()) = (.ok, true) :=
  ⟨(claim_C7.2.1 (.str "casadw/u1/123_foto") "boom" rfl).1,
   claim_C7.2.2 (.str "casadw/u1/123_foto") rfl⟩

/-- C10: in the volatile variant, a per-domain GET on an absent key does not
persist the defaulted record it returns: the post-state is exactly the
post-state of the lazy `getUserData` creation, the user's stored expenses
still have no record at that key, and a subsequent `GET /api/sync` lists
exactly the previously stored expense records. -/
theorem claim_C10 :
    ∀ (db : V.Database) (u ms ys : String) (t : Nat),
      (V.getExpenses db u ms ys).1 = (V.getUserData db (.str u)).1 ∧
      ((V.getUserData db (.str u)).2.expenses.get?
          (recKey (.str ms) (.str ys)) = none →
        ∃ u', V.storedUser (V.getExpenses db u ms ys).1 (.str u) = some u' ∧
          u'.expenses.get? (recKey (.str ms) (.str ys)) = none) ∧
      ((V.getSync (V.getExpenses db u ms ys).1 t u).2).expenses
        = (V.getUserData db (.str u)).2.expenses.values := by
  intro db u ms ys t
  have hfst : (V.getExpenses db u ms ys).1 = (V.getUserData db (.str u)).1 := by
    unfold V.getExpenses
    cases h : (V.getUserData db (.str u)).2.expenses.get?
        (recKey (.str ms) (.str ys)) <;> simp [h]
  refine ⟨hfst, fun h => ?_, ?_⟩
  · refine ⟨(V.getUserData db (.str u)).2, ?_, h⟩
    rw [hfst]
    unfold V.storedUser
    exact V.get?_getUserData db (.str u)
  · rw [hfst]
    unfold V.getSync
    rw [V.getUserData_of_mem (V.get?_getUserData db (.str u))]

/-- C10 witness: reading March 2025 expenses of an unseen user on the empty
store leaves no record at that key. -/
theorem claim_C10_witness :
    ∃ u', V.storedUser (V.getExpenses AMap.empty "bob" "3" "2025").1
        (.str "bob") = some u' ∧
      u'.expenses.get? (recKey (.str "3") (.str "2025")) = none :=
  (claim_C10 AMap.empty "bob" "3" "2025" 0).2.1 rfl

/-- C3: for a never-seen `userId`, `GET /api/sync/{userId}` returns exactly
the documented defaults: in the volatile variant empty record lists and the
`{vehicles: []}` fleet; in the persistent variant additionally the fixed
configuration lists — `years = [2024, 2025, 2026]`, the 10-item category
list, the 15-item supplier list and the 4-item payment-method list. -/
theorem claim_C3 :
    (∀ (db : V.Database) (t : Nat) (u : String),
       db.get? u = none →
       (V.getSync db t u).2 = ⟨[], [], { vehicles := .arr .nil }, [], t⟩) ∧
    (∀ (col : P.UsersCollection) (t : Nat) (u : String),
       col.get? (.str u) = none →
       P.getSync col t u = P.defaultSyncOut t) ∧
    P.defaultCategories.length = 10 ∧
    P.defaultSuppliers.length = 15 ∧
    P.defaultPaymentMethods.length = 4 := by
  refine ⟨fun db t u h => ?_, fun col t u h => ?_, rfl, rfl, rfl⟩
  · unfold V.getSync V.getUserData
    simp [h, V.defaultUserState, AMap.values, AMap.empty]
  · unfold P.getSync
    rw [h]

/-- C3 witness on the empty stores. -/
theorem claim_C3_witness :
    (V.getSync AMap.empty 7 "carol").2
        = ⟨[], [], { vehicles := .arr .nil }, [], 7⟩ ∧
    P.getSync AMap.empty 9 "carol" = P.defaultSyncOut 9 :=
  ⟨claim_C3.1 AMap.empty 7 "carol" rfl,
   claim_C3.2.1 AMap.empty 9 "carol" rfl⟩


/-! ## Characterisation of the sync writes -/

namespace V

/-- Full field-wise characterisation of the volatile `POST /api/sync`: the
user is stored (under `String(userId)`), each of the four state fields is
transformed by its own branch only. -/
theorem postSync_stored (db : Database) (now : Nat) (b : SyncBody) :
    ∃ u', storedUser (postSync db now b).1 b.userId = some u' ∧
      u'.expenses = (if b.expenses.truthy && b.expenses.isArr then
          upsertItems b.userId now b.expenses.elems
            (getUserData db b.userId).2.expenses
        else (getUserData db b.userId).2.expenses) ∧
      u'.income = (if b.income.truthy && b.income.isArr then
          upsertItems b.userId now b.income.elems
            (getUserData db b.userId).2.income
        else (getUserData db b.userId).2.income) ∧
      u'.fleet = (if b.fleet.truthy then
          (⟨some b.userId, jsOr (b.fleet.getProp "vehicles") (.arr .nil),
            some now⟩ : Fleet)
        else (getUserData db b.userId).2.fleet) ∧
      u'.notes = (if b.notes.truthy && b.notes.isArr then
          upsertNotes b.userId now b.notes.elems
            (getUserData db b.userId).2.notes
        else (getUserData db b.userId).2.notes) := by
  unfold postSync
  simp only [storedUser, AMap.get?_set_self]
  refine ⟨_, rfl, ?_, ?_, ?_, ?_⟩ <;>
    simp [apply_ite UserState.expenses, apply_ite UserState.income,
          apply_ite UserState.fleet, apply_ite UserState.notes]

end V

namespace P

theorem setField_of_ne {old new : JVal} (h : new ≠ .undef) :
    setField old new = new := by
  cases new <;> first | exact absurd rfl h | rfl

/-- The persistent `POST /api/sync` with a truthy `userId` stores a document
in which every payload field that is present replaces the stored field
verbatim and wholesale. -/
theorem postSync_field (col : UsersCollection) (now : Nat) (b : SyncBody)
    (f : Field) (hu : b.userId.truthy = true) (hf : b.field f ≠ .undef) :
    ∃ d, ((postSync col now b).1).get? b.userId = some d ∧
      d.field f = b.field f := by
  unfold postSync
  simp only [hu, if_true]
  refine ⟨_, AMap.get?_set_self _ _ _, ?_⟩
  cases f <;>
    (simp only [SyncBody.field] at hf ⊢; simp [UserDoc.field, setField_of_ne hf])

end P

/-- C1 (amended): in the volatile variant `POST /api/sync` is a key-wise
upsert: when the payload carries an expenses array, the stored expense record
at key `k` becomes the record built from the last incoming entry whose
`` `${month}-${year}` `` key is `k`, records at keys not written by any entry
are untouched, and the stored key set only grows; likewise for income and
notes.  In the persistent variant, however, a present `expenses` (or any
other) field replaces the stored field wholesale, verbatim. -/
theorem claim_C1_amended :
    (∀ (db : V.Database) (now : Nat) (uid inc flt nts : JVal) (xs : JItems)
        (k : String),
      ∃ u', V.storedUser
            (V.postSync db now ⟨uid, .arr xs, inc, flt, nts⟩).1 uid
          = some u' ∧
        (∀ e, xs.toList.reverse.find?
            (fun e => recKey (e.getProp "month") (e.getProp "year") == k)
              = some e →
          u'.expenses.get? k = some ⟨uid, e.getProp "month",
            e.getProp "year", e.getProp "items", now⟩) ∧
        (xs.toList.reverse.find?
            (fun e => recKey (e.getProp "month") (e.getProp "year") == k)
              = none →
          u'.expenses.get? k
            = (V.getUserData db uid).2.expenses.get? k) ∧
        (((V.getUserData db uid).2.expenses.get? k).isSome = true →
          (u'.expenses.get? k).isSome = true)) ∧
    (∀ (db : V.Database) (now : Nat) (uid exp flt nts : JVal) (xs : JItems)
        (k : String),
      ∃ u', V.storedUser
            (V.postSync db now ⟨uid, exp, .arr xs, flt, nts⟩).1 uid
          = some u' ∧
        (∀ e, xs.toList.reverse.find?
            (fun e => recKey (e.getProp "month") (e.getProp "year") == k)
              = some e →
          u'.income.get? k = some ⟨uid, e.getProp "month",
            e.getProp "year", e.getProp "items", now⟩) ∧
        (xs.toList.reverse.find?
            (fun e => recKey (e.getProp "month") (e.getProp "year") == k)
              = none →
          u'.income.get? k = (V.getUserData db uid).2.income.get? k) ∧
        (((V.getUserData db uid).2.income.get? k).isSome = true →
          (u'.income.get? k).isSome = true)) ∧
    (∀ (db : V.Database) (now : Nat) (uid exp inc flt : JVal) (xs : JItems)
        (k : String),
      ∃ u', V.storedUser
            (V.postSync db now ⟨uid, exp, inc, flt, .arr xs⟩).1 uid
          = some u' ∧
        (∀ e, xs.toList.reverse.find?
            (fun e => recKey (e.getProp "month") (e.getProp "year") == k)
              = some e →
          u'.notes.get? k = some ⟨uid, e.getProp "month",
            e.getProp "year", e.getProp "content", now⟩) ∧
        (xs.toList.reverse.find?
            (fun e => recKey (e.getProp "month") (e.getProp "year") == k)
              = none →
          u'.notes.get? k = (V.getUserData db uid).2.notes.get? k) ∧
        (((V.getUserData db uid).2.notes.get? k).isSome = true →
          (u'.notes.get? k).isSome = true)) ∧
    (∀ (col : P.UsersCollection) (now : Nat) (b : P.SyncBody) (f : P.Field),
      b.userId.truthy = true → b.field f ≠ .undef →
      ∃ d, ((P.postSync col now b).1).get? b.userId = some d ∧
        d.field f = b.field f) := by
  refine ⟨?_, ?_, ?_, fun col now b f hu hf => P.postSync_field col now b f hu hf⟩
  · intro db now uid inc flt nts xs k
    obtain ⟨u', hs, he, _, _, _⟩ :=
      V.postSync_stored db now ⟨uid, .arr xs, inc, flt, nts⟩
    simp only [JVal.truthy, JVal.isArr, JVal.elems, Bool.and_self,
      if_true] at he
    refine ⟨u', hs, fun e hf => ?_, fun hf => ?_, fun hsome => ?_⟩
    · rw [he, V.get?_upsertItems, hf]
    · rw [he, V.get?_upsertItems, hf]
    · rw [he, V.get?_upsertItems]
      cases hf : xs.toList.reverse.find?
          (fun e => recKey (e.getProp "month") (e.getProp "year") == k) <;>
        simp [hf, hsome]
  · intro db now uid exp flt nts xs k
    obtain ⟨u', hs, _, he, _, _⟩ :=
      V.postSync_stored db now ⟨uid, exp, .arr xs, flt, nts⟩
    simp only [JVal.truthy, JVal.isArr, JVal.elems, Bool.and_self,
      if_true] at he
    refine ⟨u', hs, fun e hf => ?_, fun hf => ?_, fun hsome => ?_⟩
    · rw [he, V.get?_upsertItems, hf]
    · rw [he, V.get?_upsertItems, hf]
    · rw [he, V.get?_upsertItems]
      cases hf : xs.toList.reverse.find?
          (fun e => recKey (e.getProp "month") (e.getProp "year") == k) <;>
        simp [hf, hsome]
  · intro db now uid exp inc flt xs k
    obtain ⟨u', hs, _, _, _, he⟩ :=
      V.postSync_stored db now ⟨uid, exp, inc, flt, .arr xs⟩
    simp only [JVal.truthy, JVal.isArr, JVal.elems, Bool.and_self,
      if_true] at he
    refine ⟨u', hs, fun e hf => ?_, fun hf => ?_, fun hsome => ?_⟩
    · rw [he, V.get?_upsertNotes, hf]
    · rw [he, V.get?_upsertNotes, hf]
    · rw [he, V.get?_upsertNotes]
      cases hf : xs.toList.reverse.find?
          (fun e => recKey (e.getProp "month") (e.getProp "year") == k) <;>
        simp [hf, hsome]


/-- A January-2025 expense record entry as sent by a sync payload. -/
def janRecord : JVal :=
  JVal.mkObj [("month", .num 1), ("year", .num 2025),
    ("items", JVal.mkArr [.str "padaria"])]

/-- A February-2025 expense record entry as sent by a sync payload. -/
def febRecord : JVal :=
  JVal.mkObj [("month", .num 2), ("year", .num 2025),
    ("items", JVal.mkArr [.str "mercado"])]

/-- A persistent-variant sync payload carrying only `userId` and
`expenses`. -/
def expensesOnlyBody (e : JVal) : P.SyncBody :=
  ⟨.str "u1", e, .undef, .undef, .undef, .undef, .undef, .undef, .undef,
   .undef, .undef, .undef, .undef⟩

/-- C1 counterexample: in the persistent variant, syncing
`expenses: [janRecord]` after a prior sync of `expenses: [febRecord]` leaves
only the January record readable — the February record is dropped, so the
collection does shrink, contradicting the claimed key-wise upsert for
`POST /api/sync` in this variant. -/
theorem claim_C1_cex :
    (P.getSync ((P.postSync AMap.empty 1
        (expensesOnlyBody (JVal.mkArr [febRecord]))).1) 10 "u1").expenses
      = JVal.mkArr [febRecord] ∧
    (P.getSync ((P.postSync ((P.postSync AMap.empty 1
        (expensesOnlyBody (JVal.mkArr [febRecord]))).1) 2
        (expensesOnlyBody (JVal.mkArr [janRecord]))).1) 11 "u1").expenses
      = JVal.mkArr [janRecord] := ⟨rfl, rfl⟩

/-- C1 witness: a one-entry expenses sync stores exactly that record at its
key in the volatile variant, and replaces the expenses field verbatim in the
persistent variant. -/
theorem claim_C1_amended_witness :
    (∃ u', V.storedUser (V.postSync AMap.empty 5
          ⟨.str "u1", JVal.mkArr [janRecord], .undef, .undef, .undef⟩).1
        (.str "u1") = some u' ∧
      u'.expenses.get? "1-2025" = some ⟨.str "u1", .num 1, .num 2025,
        JVal.mkArr [.str "padaria"], 5⟩) ∧
    (∃ d, ((P.postSync AMap.empty 5
          (expensesOnlyBody (JVal.mkArr [janRecord]))).1).get? (.str "u1")
        = some d ∧
      d.field .expenses = JVal.mkArr [janRecord]) := by
  constructor
  · obtain ⟨u', hs, hsome, _, _⟩ := claim_C1_amended.1 AMap.empty 5
      (.str "u1") .undef .undef .undef (.cons janRecord .nil) "1-2025"
    exact ⟨u', hs, hsome janRecord rfl⟩
  · obtain ⟨d, h1, h2⟩ := claim_C1_amended.2.2.2 AMap.empty 5
      (expensesOnlyBody (JVal.mkArr [janRecord])) .expenses rfl (by decide)
    exact ⟨d, h1, h2⟩

/-- The volatile sync payload of a request whose body has no fields at
all (in particular no `userId`). -/
def noUserSyncBody : V.SyncBody := ⟨.undef, .undef, .undef, .undef, .undef⟩

/-- A persistent sync payload with no fields at all. -/
def noUserPSyncBody : P.SyncBody :=
  ⟨.undef, .undef, .undef, .undef, .undef, .undef, .undef, .undef, .undef,
   .undef, .undef, .undef, .undef⟩

/-- C9 counterexample: the volatile `POST /api/sync` performs no `userId`
validation: a body with no `userId` is answered `{success: true}` (not HTTP
400) and creates state under the key `"undefined"` — the store is modified,
contradicting the claim for this endpoint. -/
theorem claim_C9_cex :
    (V.postSync AMap.empty 0 noUserSyncBody).2 = true ∧
    (V.postSync AMap.empty 0 noUserSyncBody).1
      = [("undefined", V.defaultUserState)] ∧
    (V.postSync AMap.empty 0 noUserSyncBody).1 ≠ (AMap.empty : V.Database) :=
  ⟨rfl, rfl, by decide⟩

/-- C9 (amended): only the persistent `POST /api/sync` validates `userId`:
a falsy `userId` yields HTTP 400 with the validation error and leaves the
collection untouched.  The volatile endpoints do not validate: a missing
`userId` is processed as the property key `"undefined"`, state is created or
modified under it, and the response is `{success: true}`. -/
theorem claim_C9_amended :
    (∀ (col : P.UsersCollection) (now : Nat) (b : P.SyncBody),
       b.userId.truthy = false →
       P.postSync col now b = (col, .badRequest "userId obrigatório") ∧
       ((P.postSync col now b).2).status = 400) ∧
    (∀ (db : V.Database) (now : Nat) (b : V.SyncBody),
       b.userId = .undef →
       (V.postSync db now b).2 = true ∧
       ∃ u', V.storedUser (V.postSync db now b).1 b.userId = some u') := by
  constructor
  · intro col now b h
    constructor <;> simp [P.postSync, h, P.PostResult.status]
  · intro db now b h
    refine ⟨rfl, ?_⟩
    obtain ⟨u', hs, _⟩ := V.postSync_stored db now b
    exact ⟨u', hs⟩

/-- C9 witness at concrete userId-less bodies. -/
theorem claim_C9_amended_witness :
    P.postSync AMap.empty 3 noUserPSyncBody
      = (AMap.empty, .badRequest "userId obrigatório") ∧
    (V.postSync AMap.empty 3 noUserSyncBody).2 = true :=
  ⟨(claim_C9_amended.1 AMap.empty 3 noUserPSyncBody rfl).1,
   (claim_C9_amended.2 AMap.empty 3 noUserSyncBody rfl).1⟩

/-- A persistent sync payload carrying `userId` and a fleet object that has
no `vehicles` field. -/
def fleetNoVehiclesBody : P.SyncBody :=
  ⟨.str "u1", .undef, .undef, JVal.mkObj [], .undef, .undef, .undef, .undef,
   .undef, .undef, .undef, .undef, .undef⟩

/-- C8 counterexample: in the persistent variant, a sync whose fleet object
omits `vehicles` stores the incoming object verbatim, and the subsequent read
returns a fleet with no `vehicles` list at all (`{}`), contradicting the
claimed `vehicles: []` defaulting for this variant. -/
theorem claim_C8_cex :
    (P.getSync ((P.postSync AMap.empty 1 fleetNoVehiclesBody).1) 2
        "u1").fleet = JVal.mkObj [] ∧
    ((P.getSync ((P.postSync AMap.empty 1 fleetNoVehiclesBody).1) 2
        "u1").fleet).getProp "vehicles" = .undef := ⟨rfl, rfl⟩

/-- C8 (amended): in the volatile variant a truthy fleet payload replaces the
stored fleet object entirely with `{userId, vehicles: fleet.vehicles || [],
updatedAt}` — in particular `vehicles` defaults to `[]` when the incoming
object omits it.  In the persistent variant a present fleet value replaces
the stored field verbatim, with no `vehicles` defaulting. -/
theorem claim_C8_amended :
    (∀ (db : V.Database) (now : Nat) (b : V.SyncBody),
       b.fleet.truthy = true →
       ∃ u', V.storedUser (V.postSync db now b).1 b.userId = some u' ∧
         u'.fleet = ⟨some b.userId,
           jsOr (b.fleet.getProp "vehicles") (.arr .nil), some now⟩) ∧
    (∀ (db : V.Database) (now : Nat) (b : V.SyncBody),
       b.fleet.truthy = true → b.fleet.getProp "vehicles" = .undef →
       ∃ u', V.storedUser (V.postSync db now b).1 b.userId = some u' ∧
         u'.fleet.vehicles = .arr .nil) ∧
    (∀ (col : P.UsersCollection) (now : Nat) (b : P.SyncBody),
       b.userId.truthy = true → b.fleet ≠ .undef →
       ∃ d, ((P.postSync col now b).1).get? b.userId = some d ∧
         d.fleet = b.fleet) := by
  refine ⟨?_, ?_, ?_⟩
  · intro db now b hf
    obtain ⟨u', hs, _, _, hfl, _⟩ := V.postSync_stored db now b
    simp only [hf, if_true] at hfl
    exact ⟨u', hs, hfl⟩
  · intro db now b hf hv
    obtain ⟨u', hs, _, _, hfl, _⟩ := V.postSync_stored db now b
    simp only [hf, if_true] at hfl
    refine ⟨u', hs, ?_⟩
    rw [hfl]
    simp [hv, jsOr, JVal.truthy]
  · intro col now b hu hf
    obtain ⟨d, h1, h2⟩ := P.postSync_field col now b .fleet hu hf
    exact ⟨d, h1, h2⟩

/-- C8 witness at concrete fleets. -/
theorem claim_C8_amended_witness :
    (∃ u', V.storedUser (V.postSync AMap.empty 4
          ⟨.str "u1", .undef, .undef,
            JVal.mkObj [("vehicles", JVal.mkArr [.str "car"])], .undef⟩).1
        (.str "u1") = some u' ∧
      u'.fleet = ⟨some (.str "u1"), JVal.mkArr [.str "car"], some 4⟩) ∧
    (∃ u', V.storedUser (V.postSync AMap.empty 4
          ⟨.str "u1", .undef, .undef, JVal.mkObj [], .undef⟩).1
        (.str "u1") = some u' ∧ u'.fleet.vehicles = .arr .nil) ∧
    (∃ d, ((P.postSync AMap.empty 4 fleetNoVehiclesBody).1).get? (.str "u1")
        = some d ∧ d.fleet = JVal.mkObj []) := by
  refine ⟨?_, ?_, ?_⟩
  · obtain ⟨u', hs, hfl⟩ := claim_C8_amended.1 AMap.empty 4
      ⟨.str "u1", .undef, .undef,
        JVal.mkObj [("vehicles", JVal.mkArr [.str "car"])], .undef⟩ rfl
    exact ⟨u', hs, hfl⟩
  · obtain ⟨u', hs, hfl⟩ := claim_C8_amended.2.1 AMap.empty 4
      ⟨.str "u1", .undef, .undef, JVal.mkObj [], .undef⟩ rfl rfl
    exact ⟨u', hs, hfl⟩
  · obtain ⟨d, h1, h2⟩ := claim_C8_amended.2.2 AMap.empty 4
      fleetNoVehiclesBody rfl (by decide)
    exact ⟨d, h1, h2⟩


/-- C2: `POST /api/sync` is a sparse patch at the top level: a payload in
which `expenses` / `income` / `notes` are absent leaves the stored values of
those fields unchanged in both variants — a subsequent `GET /api/sync`
returns them exactly as the read before the write did.  (In the persistent
variant this holds for every absent top-level field.) -/
theorem claim_C2 :
    (∀ (db : V.Database) (t0 now t1 : Nat) (u : String) (b : V.SyncBody),
       b.userId = .str u →
       (b.expenses = .undef →
         ((V.getSync ((V.postSync ((V.getSync db t0 u).1) now b).1)
             t1 u).2).expenses = ((V.getSync db t0 u).2).expenses) ∧
       (b.income = .undef →
         ((V.getSync ((V.postSync ((V.getSync db t0 u).1) now b).1)
             t1 u).2).income = ((V.getSync db t0 u).2).income) ∧
       (b.notes = .undef →
         ((V.getSync ((V.postSync ((V.getSync db t0 u).1) now b).1)
             t1 u).2).notes = ((V.getSync db t0 u).2).notes)) ∧
    (∀ (col : P.UsersCollection) (t0 now t1 : Nat) (u : String)
        (b : P.SyncBody) (f : P.Field),
       b.userId = .str u → u ≠ "" → b.field f = .undef →
       (P.getSync ((P.postSync col now b).1) t1 u).field f
         = (P.getSync col t0 u).field f) := by
  constructor
  · intro db t0 now t1 u b hu
    have hg2 : V.getUserData ((V.getUserData db (.str u)).1) (.str u)
        = ((V.getUserData db (.str u)).1, (V.getUserData db (.str u)).2) :=
      V.getUserData_of_mem (V.get?_getUserData db (.str u))
    obtain ⟨u', hs, hexp, hinc, hfl, hnts⟩ :=
      V.postSync_stored ((V.getUserData db (.str u)).1) now b
    simp only [hu, hg2] at hs hexp hinc hnts
    have hg3 : V.getUserData
        ((V.postSync ((V.getUserData db (.str u)).1) now b).1) (.str u)
        = ((V.postSync ((V.getUserData db (.str u)).1) now b).1, u') :=
      V.getUserData_of_mem hs
    refine ⟨fun he => ?_, fun he => ?_, fun he => ?_⟩
    · simp only [V.getSync, hg3]
      rw [hexp]
      simp [he, JVal.truthy]
    · simp only [V.getSync, hg3]
      rw [hinc]
      simp [he, JVal.truthy]
    · simp only [V.getSync, hg3]
      rw [hnts]
      simp [he, JVal.truthy]
  · intro col t0 now t1 u b f hu hne hf
    have ht : b.userId.truthy = true := by
      rw [hu]
      simp [JVal.truthy, hne]
    unfold P.postSync
    simp only [ht, if_true]
    unfold P.getSync
    rw [hu, AMap.get?_set_self]
    cases hc : col.get? (.str u) with
    | none =>
      cases f <;>
        (simp only [P.SyncBody.field] at hf;
         simp [P.SyncOut.field, P.UserDoc.field, P.setField, P.defaultSyncOut,
           hu, hc, hf, jsOr, JVal.truthy])
    | some dOld =>
      cases f <;>
        (simp only [P.SyncBody.field] at hf;
         simp [P.SyncOut.field, P.UserDoc.field, P.setField, hu, hc, hf])

/-- A volatile sync payload carrying only `userId` and `fleet`. -/
def fleetOnlyVBody : V.SyncBody :=
  ⟨.str "w", .undef, .undef, JVal.mkObj [("vehicles", JVal.mkArr [])],
   .undef⟩

/-- A persistent sync payload carrying only `userId` and `fleet`. -/
def fleetOnlyPBody : P.SyncBody :=
  ⟨.str "w", .undef, .undef, JVal.mkObj [("vehicles", JVal.mkArr [])],
   .undef, .undef, .undef, .undef, .undef, .undef, .undef, .undef, .undef⟩

/-- C2 witness: a fleet-only sync leaves the expenses readable by the next
full read unchanged, in both variants. -/
theorem claim_C2_witness :
    ((V.getSync ((V.postSync ((V.getSync AMap.empty 1 "w").1) 2
        fleetOnlyVBody).1) 3 "w").2).expenses
      = ((V.getSync (AMap.empty : V.Database) 1 "w").2).expenses ∧
    (P.getSync ((P.postSync AMap.empty 2 fleetOnlyPBody).1) 3 "w").field
        .expenses
      = (P.getSync (AMap.empty : P.UsersCollection) 1 "w").field .expenses :=
  ⟨(claim_C2.1 AMap.empty 1 2 3 "w" fleetOnlyVBody rfl).1 rfl,
   claim_C2.2 AMap.empty 1 2 3 "w" fleetOnlyPBody .expenses rfl
     (by decide) rfl⟩

end Casario
